import Mathlib

/-!
Verification of the EmoBot interest-profile / similarity-matching subsystem.

Shallow embedding of the Python sources:
  * `database.py`   — the `UserProfile` data model and the save/upsert store
  * `matching.py`   — `calculate_similarity` and `find_matches`
  * `bot.py`        — the slash commands `add_interest` / `remove_interest`,
                      the `notify_matches` fan-out, the `on_message` buffer
                      handler and the `daily_analysis` enrichment cycle
  * `llm_analysis.py` — `extract_interests_from_messages` and
                      `should_process_messages`

Python machine floats are modelled by `ℚ` (all arithmetic appearing in the
sources is exact on the inputs considered), Python lists by `List`, the
external services (Discord gateway, PostgreSQL pool, OpenAI call, JSON
parser) by explicit oracle parameters, and a raised-and-caught Python
exception by `Except`.
-/

/-- The profile data model of `database.py` (`UserProfile` dataclass):
three category sequences plus the scanning flag.  The bookkeeping fields
`last_processed_message` and the SQL row `id` play no part in any claim and
are omitted. -/
structure UserProfile where
  discord_id : String
  username : String
  games : List String
  artists : List String
  interests : List String
  scanning_enabled : Bool := true
deriving Repr, DecidableEq

/-- ASCII lower-casing of one character, as Python's `str.lower()` acts on
the ASCII range (the only range the claims exercise). -/
def lowerChar (c : Char) : Char :=
  if c.isUpper then Char.ofNat (c.toNat + 32) else c

/-- ASCII lower-casing of a string: the model of Python's `str.lower()`. -/
def lowerStr (s : String) : String :=
  String.mk (s.data.map lowerChar)

/-- Number of distinct strings common to both lists: the Python
`len(set(l1) & set(l2))` of `matching.py`. -/
def interCount (l1 l2 : List String) : Nat :=
  (l1.dedup.filter (fun s => l2.contains s)).length

/-- Total item count of a profile: `len(games) + len(artists) + len(interests)`. -/
def totalItems (p : UserProfile) : Nat :=
  p.games.length + p.artists.length + p.interests.length

/-- Embedding of `calculate_similarity` (`matching.py`, lines 5–20).
Set intersections there are on the raw strings (case-sensitive). -/
def calculate_similarity (p1 p2 : UserProfile) : ℚ :=
  let total_items1 := totalItems p1
  let total_items2 := totalItems p2
  if total_items1 = 0 ∨ total_items2 = 0 then 0
  else
    let total_common : Nat :=
      interCount p1.games p2.games + interCount p1.artists p2.artists +
        interCount p1.interests p2.interests
    let average_total : ℚ := ((total_items1 : ℚ) + (total_items2 : ℚ)) / 2
    let similarity : ℚ := if 0 < average_total then (total_common : ℚ) / average_total else 0
    min similarity 1

/-- Modelled from the spec (§4.2): the similarity formula with
CASE-INSENSITIVE intersections, as the spec's words state it.  Used only to
compare against the code's `calculate_similarity`. -/
def spec_score_ci (p1 p2 : UserProfile) : ℚ :=
  let sizeA := totalItems p1
  let sizeB := totalItems p2
  if sizeA = 0 ∨ sizeB = 0 then 0
  else
    let common : Nat :=
      interCount (p1.games.map lowerStr) (p2.games.map lowerStr) +
        interCount (p1.artists.map lowerStr) (p2.artists.map lowerStr) +
        interCount (p1.interests.map lowerStr) (p2.interests.map lowerStr)
    min 1 ((common : ℚ) / (((sizeA : ℚ) + (sizeB : ℚ)) / 2))

/-- The spec's formula amended to case-SENSITIVE intersections (what the
code computes): 0 when either profile is empty, otherwise
`min 1 (common / ((sizeA+sizeB)/2))` with exact-string intersections. -/
def spec_score_cs (p1 p2 : UserProfile) : ℚ :=
  let sizeA := totalItems p1
  let sizeB := totalItems p2
  if sizeA = 0 ∨ sizeB = 0 then 0
  else
    let common : Nat :=
      interCount p1.games p2.games + interCount p1.artists p2.artists +
        interCount p1.interests p2.interests
    min 1 ((common : ℚ) / (((sizeA : ℚ) + (sizeB : ℚ)) / 2))

/-- The end-to-end example profile A of the spec (§8): `games = [Chess]`. -/
def profileA : UserProfile :=
  { discord_id := "A", username := "alice", games := ["Chess"],
    artists := [], interests := [], scanning_enabled := true }

/-- The end-to-end example profile B of the spec (§8): `games = [chess, Go]`. -/
def profileB : UserProfile :=
  { discord_id := "B", username := "bob", games := ["chess", "Go"],
    artists := [], interests := [], scanning_enabled := true }

/-- C1 counterexample: on the spec's own end-to-end example
(A.games = ["Chess"], B.games = ["chess", "Go"]) the code's
`calculate_similarity` returns 0, not the case-insensitive 2/3 the claim
demands — the code intersects raw strings, so "Chess" and "chess" do not
match. -/
theorem calculate_similarity_not_case_insensitive :
    calculate_similarity profileA profileB ≠ spec_score_ci profileA profileB ∧
    calculate_similarity profileA profileB = 0 ∧
    spec_score_ci profileA profileB = 2 / 3 := by
  have hcode : calculate_similarity profileA profileB = 0 := by
    unfold calculate_similarity
    have h1 : totalItems profileA = 1 := by decide
    have h2 : totalItems profileB = 2 := by decide
    have hg : interCount profileA.games profileB.games = 0 := by decide
    have ha : interCount profileA.artists profileB.artists = 0 := by decide
    have hi : interCount profileA.interests profileB.interests = 0 := by decide
    rw [h1, h2, hg, ha, hi]
    norm_num
  have hspec : spec_score_ci profileA profileB = 2 / 3 := by
    unfold spec_score_ci
    have h1 : totalItems profileA = 1 := by decide
    have h2 : totalItems profileB = 2 := by decide
    have hg : interCount (profileA.games.map lowerStr)
        (profileB.games.map lowerStr) = 1 := by decide
    have ha : interCount (profileA.artists.map lowerStr)
        (profileB.artists.map lowerStr) = 0 := by decide
    have hi : interCount (profileA.interests.map lowerStr)
        (profileB.interests.map lowerStr) = 0 := by decide
    simp only [h1, h2, hg, ha, hi]
    norm_num [min_def]
  refine ⟨?_, hcode, hspec⟩
  rw [hcode, hspec]
  norm_num

/-- C1 (amended): for every pair of profiles the code's similarity equals
the spec formula with case-SENSITIVE intersections: 0 when either profile
has no items, otherwise `min 1 (common / ((sizeA+sizeB)/2))` where `common`
counts exact-string shared items over the three categories. -/
theorem calculate_similarity_eq_spec_cs (p1 p2 : UserProfile) :
    calculate_similarity p1 p2 = spec_score_cs p1 p2 := by
  unfold calculate_similarity spec_score_cs
  by_cases h : totalItems p1 = 0 ∨ totalItems p2 = 0
  · simp [h]
  · push_neg at h
    have h1 : 0 < totalItems p1 := Nat.pos_of_ne_zero h.1
    have h2 : 0 < totalItems p2 := Nat.pos_of_ne_zero h.2
    have havg : (0 : ℚ) < ((totalItems p1 : ℚ) + (totalItems p2 : ℚ)) / 2 := by
      have c1 : (0 : ℚ) < (totalItems p1 : ℚ) := by exact_mod_cast h1
      have c2 : (0 : ℚ) < (totalItems p2 : ℚ) := by exact_mod_cast h2
      linarith
    have hne : ¬(totalItems p1 = 0 ∨ totalItems p2 = 0) := by tauto
    simp only [if_neg hne, if_pos havg]
    exact min_comm _ _

/-- A match result pair `(other profile, similarity score)`. -/
abbrev MatchPair := UserProfile × ℚ

/-- Descending-score comparison.  Python's `matches.sort(key=lambda x: x[1],
reverse=True)` is a stable sort by this relation; `List.insertionSort` with
this relation is stable and sorted by it, hence extensionally the same
sort. -/
def scoreGE (a b : MatchPair) : Prop := b.2 ≤ a.2

instance : DecidableRel scoreGE :=
  fun a b => inferInstanceAs (Decidable (b.2 ≤ a.2))

instance : IsTotal MatchPair scoreGE :=
  ⟨fun a b => le_total b.2 a.2⟩

instance : IsTrans MatchPair scoreGE :=
  ⟨fun _ _ _ h1 h2 => le_trans h2 h1⟩

/-- Embedding of `UserProfile.find_all_except` (`database.py`): all stored
profiles whose identity differs from the given one, in store order. -/
def find_all_except (db : List UserProfile) (uid : String) : List UserProfile :=
  db.filter (fun p => !(p.discord_id == uid))

/-- The body of the candidate loop of `find_matches` (`matching.py`,
lines 26–33): skip non-members, score the rest, append those at or above
the threshold. -/
def matchStep (subject : UserProfile) (member : String → Bool) (threshold : ℚ)
    (acc : List MatchPair) (other_profile : UserProfile) : List MatchPair :=
  if !(member other_profile.discord_id) then acc
  else
    let similarity := calculate_similarity subject other_profile
    if threshold ≤ similarity then acc ++ [(other_profile, similarity)] else acc

/-- Embedding of `find_matches` (`matching.py`, lines 22–36): loop over the
other stored profiles, keep guild members scoring at least the threshold
(default 0.3), stable-sort descending by score, return the first 5. -/
def find_matches (user_profile : UserProfile) (db : List UserProfile)
    (member : String → Bool) (threshold : ℚ) : List MatchPair :=
  let all_profiles := find_all_except db user_profile.discord_id
  let found := all_profiles.foldl (matchStep user_profile member threshold) []
  (List.insertionSort scoreGE found).take 5

/-- The spec's description of the ranking filter: the candidates that are
reachable members with score at least the threshold, paired with their
scores, in input order. -/
def rankFilter (subject : UserProfile) (candidates : List UserProfile)
    (member : String → Bool) (threshold : ℚ) : List MatchPair :=
  candidates.filterMap (fun other =>
    let s := calculate_similarity subject other
    if member other.discord_id = true ∧ threshold ≤ s then some (other, s) else none)

lemma matchStep_eq (subject : UserProfile) (member : String → Bool) (threshold : ℚ)
    (acc : List MatchPair) (x : UserProfile) :
    matchStep subject member threshold acc x =
      acc ++ (if member x.discord_id = true ∧ threshold ≤ calculate_similarity subject x
        then [(x, calculate_similarity subject x)] else []) := by
  unfold matchStep
  cases hm : member x.discord_id with
  | false => simp [hm]
  | true =>
    by_cases hs : threshold ≤ calculate_similarity subject x
    · simp [hm, hs]
    · simp [hm, hs]

lemma rankFilter_cons (subject : UserProfile) (member : String → Bool) (threshold : ℚ)
    (x : UserProfile) (xs : List UserProfile) :
    rankFilter subject (x :: xs) member threshold =
      (if member x.discord_id = true ∧ threshold ≤ calculate_similarity subject x
        then [(x, calculate_similarity subject x)] else []) ++
      rankFilter subject xs member threshold := by
  unfold rankFilter
  rw [List.filterMap_cons]
  by_cases h : member x.discord_id = true ∧ threshold ≤ calculate_similarity subject x
  · rw [if_pos h, if_pos h]
    simp
  · rw [if_neg h, if_neg h]
    simp

lemma foldl_matchStep_eq (subject : UserProfile) (member : String → Bool) (threshold : ℚ) :
    ∀ (l : List UserProfile) (acc : List MatchPair),
      l.foldl (matchStep subject member threshold) acc =
        acc ++ rankFilter subject l member threshold := by
  intro l
  induction l with
  | nil => intro acc; simp [rankFilter]
  | cons x xs ih =>
    intro acc
    rw [List.foldl_cons, matchStep_eq, ih, rankFilter_cons, List.append_assoc]

lemma filter_key_orderedInsert (q : ℚ) (a : MatchPair) (l : List MatchPair) :
    (List.orderedInsert scoreGE a l).filter (fun x => x.2 == q) =
      (if a.2 == q then [a] else []) ++ l.filter (fun x => x.2 == q) := by
  induction l with
  | nil =>
    simp only [List.orderedInsert, List.filter]
    cases h : (a.2 == q) <;> simp [h]
  | cons b t ih =>
    by_cases hab : scoreGE a b
    · rw [List.orderedInsert, if_pos hab]
      by_cases ha : a.2 = q <;> simp [List.filter_cons, ha]
    · rw [List.orderedInsert, if_neg hab]
      have hlt : a.2 < b.2 := not_le.mp hab
      rw [List.filter_cons, ih]
      by_cases hbq : b.2 = q
      · have haq : ¬ (a.2 = q) := fun h => absurd (h ▸ hlt) (by rw [hbq]; exact lt_irrefl q)
        simp [hbq, haq]
      · simp [hbq]

lemma filter_key_insertionSort (q : ℚ) (l : List MatchPair) :
    (List.insertionSort scoreGE l).filter (fun x => x.2 == q) =
      l.filter (fun x => x.2 == q) := by
  induction l with
  | nil => rfl
  | cons a t ih =>
    rw [List.insertionSort, filter_key_orderedInsert, ih, List.filter_cons]
    by_cases h : a.2 = q <;> simp [h]

/-- C4: `find_matches` returns the first 5 of the stable descending sort of
exactly those candidates (the stored profiles other than the subject) that
are reachable guild members with score at least the threshold; the sorted
list is a permutation of that filter, is sorted descending by score, agrees
with the input order on every equal-score class (stability), and the result
is itself sorted descending with at most 5 entries. -/
theorem find_matches_ranking (subject : UserProfile) (db : List UserProfile)
    (member : String → Bool) (threshold : ℚ) :
    find_matches subject db member threshold =
      (List.insertionSort scoreGE
        (rankFilter subject (find_all_except db subject.discord_id) member threshold)).take 5 ∧
    (List.insertionSort scoreGE
      (rankFilter subject (find_all_except db subject.discord_id) member threshold)).Perm
      (rankFilter subject (find_all_except db subject.discord_id) member threshold) ∧
    List.Sorted scoreGE
      (List.insertionSort scoreGE
        (rankFilter subject (find_all_except db subject.discord_id) member threshold)) ∧
    (∀ q : ℚ,
      (List.insertionSort scoreGE
        (rankFilter subject (find_all_except db subject.discord_id) member threshold)).filter
          (fun x => x.2 == q) =
      (rankFilter subject (find_all_except db subject.discord_id) member threshold).filter
        (fun x => x.2 == q)) ∧
    List.Sorted scoreGE (find_matches subject db member threshold) ∧
    (find_matches subject db member threshold).length ≤ 5 := by
  have heq : find_matches subject db member threshold =
      (List.insertionSort scoreGE
        (rankFilter subject (find_all_except db subject.discord_id) member threshold)).take 5 := by
    simp only [find_matches]
    rw [foldl_matchStep_eq, List.nil_append]
  have hsorted := List.sorted_insertionSort scoreGE
    (rankFilter subject (find_all_except db subject.discord_id) member threshold)
  refine ⟨heq, List.perm_insertionSort scoreGE _, hsorted,
    fun q => filter_key_insertionSort q _, ?_, ?_⟩
  · rw [heq]
    exact hsorted.sublist (List.take_sublist 5 _)
  · rw [heq]
    exact List.length_take_le 5 _

/-- Case-insensitive membership test used by both insertion sites
(`bot.py` line 69 and line 225): the Python
`interest.lower() in [item.lower() for item in category_list]`. -/
def containsCI (l : List String) (item : String) : Bool :=
  (l.map lowerStr).contains (lowerStr item)

/-- The dedup-insert both insertion sites perform: append unless already
present case-insensitively.  Returns the new list and whether it changed. -/
def dedupInsert (l : List String) (item : String) : List String × Bool :=
  if containsCI l item then (l, false) else (l ++ [item], true)

/-- A category list with no two case-insensitively equal items (the spec's
category-dedup invariant). -/
def ciNodup (l : List String) : Prop := (l.map lowerStr).Nodup

instance (l : List String) : Decidable (ciNodup l) :=
  inferInstanceAs (Decidable (l.map lowerStr).Nodup)

/-- Embedding of `UserProfile.find_by_discord_id` (`database.py`): point
lookup in the store. -/
def find_by_discord_id (db : List UserProfile) (uid : String) : Option UserProfile :=
  db.find? (fun p => p.discord_id == uid)

/-- Embedding of `UserProfile.save` (`database.py`, lines 103–127):
create-or-replace the stored row keyed by `discord_id`. -/
def upsertProfile (db : List UserProfile) (p : UserProfile) : List UserProfile :=
  if db.any (fun q => q.discord_id == p.discord_id) then
    db.map (fun q => if q.discord_id == p.discord_id then p else q)
  else db ++ [p]

/-- The Python `getattr(user_profile, category)` for the three validated
category names. -/
def getCategory (p : UserProfile) (category : String) : List String :=
  if category == "games" then p.games
  else if category == "artists" then p.artists
  else p.interests

/-- Writing back the category list selected by `getCategory` (the source
mutates the selected list in place). -/
def setCategory (p : UserProfile) (category : String) (l : List String) : UserProfile :=
  if category == "games" then { p with games := l }
  else if category == "artists" then { p with artists := l }
  else { p with interests := l }

/-- The interactive replies of `bot.py`, abstracted from their embed /
message text. -/
inductive Reply where
  | invalidCategory
  | alreadyPresent
  | addedOk
  | noProfile
  | removedOk
  | notFound
deriving Repr, DecidableEq

/-- The valid category names accepted by the commands (`bot.py` lines 54
and 119). -/
def validCategories : List String := ["games", "artists", "interests"]

/-- Embedding of the `add_interest` command (`bot.py`, lines 52–79).
Returns the store after the command, whether `save()` ran, whether
`find_matches` ran (the match-ranking / notification trigger), and the
reply sent back. -/
def add_interest (db : List UserProfile) (uid uname : String)
    (category interest : String) : List UserProfile × Bool × Bool × Reply :=
  if !(validCategories.contains (lowerStr category)) then
    (db, false, false, Reply.invalidCategory)
  else
    let user_profile := (find_by_discord_id db uid).getD
      { discord_id := uid, username := uname, games := [], artists := [],
        interests := [], scanning_enabled := true }
    let category_list := getCategory user_profile (lowerStr category)
    if containsCI category_list interest then
      (db, false, false, Reply.alreadyPresent)
    else
      let p1 := setCategory user_profile (lowerStr category) (category_list ++ [interest])
      (upsertProfile db p1, true, true, Reply.addedOk)

/-- Embedding of the `remove_interest` command (`bot.py`, lines 117–134).
Python's `list.remove` deletes the first exactly-equal occurrence and
raises `ValueError` when the item is absent; the handler catches that and
reports back without saving.  Returns store, whether `save()` ran, and the
reply. -/
def remove_interest (db : List UserProfile) (uid : String)
    (category interest : String) : List UserProfile × Bool × Reply :=
  if !(validCategories.contains (lowerStr category)) then
    (db, false, Reply.invalidCategory)
  else
    match find_by_discord_id db uid with
    | none => (db, false, Reply.noProfile)
    | some user_profile =>
      let category_list := getCategory user_profile (lowerStr category)
      if category_list.contains interest then
        let p1 := setCategory user_profile (lowerStr category) (category_list.erase interest)
        (upsertProfile db p1, true, Reply.removedOk)
      else
        (db, false, Reply.notFound)

/-- C3: inserting an item already present case-insensitively is a no-op on
every path: the `add_interest` command leaves the store untouched, runs no
save and no match ranking, and replies "already present"; the dedup-insert
itself returns the list unchanged without raising the changed flag; and the
dedup-insert preserves the invariant that no category holds two
case-insensitively equal items. -/
theorem add_interest_dedup_noop (db : List UserProfile) (uid uname : String)
    (category interest : String) (p : UserProfile)
    (hvalid : validCategories.contains (lowerStr category) = true)
    (hfound : find_by_discord_id db uid = some p)
    (hpresent : containsCI (getCategory p (lowerStr category)) interest = true) :
    add_interest db uid uname category interest = (db, false, false, Reply.alreadyPresent) ∧
    (∀ l item, containsCI l item = true → dedupInsert l item = (l, false)) ∧
    (∀ l item, ciNodup l → ciNodup (dedupInsert l item).1) := by
  refine ⟨?_, ?_, ?_⟩
  · unfold add_interest
    rw [hvalid]
    simp only [Bool.not_true, Bool.false_eq_true, if_false, hfound, Option.getD_some,
      hpresent, if_true]
  · intro l item h
    unfold dedupInsert
    rw [h]
    simp
  · intro l item h
    unfold dedupInsert
    cases hc : containsCI l item
    · simp only [Bool.false_eq_true, if_false]
      unfold ciNodup at h ⊢
      rw [List.map_append]
      simp only [List.map_cons, List.map_nil]
      rw [List.nodup_append]
      refine ⟨h, List.nodup_singleton _, ?_⟩
      intro a ha hb
      simp only [List.mem_singleton] at hb
      subst hb
      unfold containsCI at hc
      have := List.contains_eq_any_beq (l.map lowerStr) (lowerStr item)
      rw [this] at hc
      have : lowerStr item ∈ l.map lowerStr := ha
      rw [List.any_eq_false] at hc
      have hfalse := hc (lowerStr item) this
      simp at hfalse
    · simp only [if_true]
      exact h

/-- C3 witness: with the end-to-end profile A stored (games = ["Chess"]),
adding "chess" to games is a no-op that persists nothing and triggers no
ranking, and the dedup-insert keeps the invariant on that category. -/
theorem add_interest_dedup_noop_witness :
    add_interest [profileA] "A" "alice" "games" "chess" =
      ([profileA], false, false, Reply.alreadyPresent) ∧
    dedupInsert ["Chess"] "chess" = (["Chess"], false) ∧
    ciNodup ["Chess"] := by
  have h := add_interest_dedup_noop [profileA] "A" "alice" "games" "chess" profileA
    (by decide) (by decide) (by decide)
  exact ⟨h.1, h.2.1 ["Chess"] "chess" (by decide), by decide⟩

/-- C8: removal matches by exact original string; removing an item that is
absent (by exact comparison) from the named category leaves the store
entirely unchanged, performs no save, and reports the non-fatal "not found"
reply; when the item is present, the first exactly-equal occurrence is
erased and the profile saved. -/
theorem remove_interest_absent_noop (db : List UserProfile) (uid : String)
    (category interest : String) (p : UserProfile)
    (hvalid : validCategories.contains (lowerStr category) = true)
    (hfound : find_by_discord_id db uid = some p) :
    ((getCategory p (lowerStr category)).contains interest = false →
      remove_interest db uid category interest = (db, false, Reply.notFound)) ∧
    ((getCategory p (lowerStr category)).contains interest = true →
      remove_interest db uid category interest =
        (upsertProfile db (setCategory p (lowerStr category)
          ((getCategory p (lowerStr category)).erase interest)), true, Reply.removedOk)) := by
  constructor
  · intro habsent
    unfold remove_interest
    rw [hvalid]
    simp only [Bool.not_true, Bool.false_eq_true, if_false, hfound, habsent]
  · intro hpresent
    unfold remove_interest
    rw [hvalid]
    simp only [Bool.not_true, Bool.false_eq_true, if_false, hfound, hpresent, if_true]

/-- C8 witness: with profile A stored (games = ["Chess"]), removing the
absent exact string "chess" reports not-found and changes nothing. -/
theorem remove_interest_absent_noop_witness :
    remove_interest [profileA] "A" "games" "chess" = ([profileA], false, Reply.notFound) := by
  exact (remove_interest_absent_noop [profileA] "A" "games" "chess" profileA
    (by decide) (by decide)).1 (by decide)

/-- Embedding of one matched pair's delivery in `notify_matches` (`bot.py`,
lines 146–168): the source's single `try` wraps BOTH `send` calls, catching
`discord.Forbidden`.  `fails r` models `send` raising `Forbidden` for
recipient `r`.  Returns (attempted recipients, successful deliveries). -/
def notify_pair (fails : String → Bool) (uid mid : String) : List String × List String :=
  if fails uid then ([uid], [])
  else if fails mid then ([uid, mid], [uid])
  else ([uid, mid], [uid, mid])

/-- Embedding of `notify_matches` (`bot.py`, lines 136–168): resolve the
subject (return silently if unreachable), then for each matched pair
resolve the partner (skip silently if unreachable) and attempt both
direct messages under one `try`.  Returns all attempted recipients and all
successful deliveries, in order; no exception escapes. -/
def notify_matches (fails : String → Bool) (guild : List String) (uid : String)
    (matchList : List (String × ℚ)) : List String × List String :=
  if !(guild.contains uid) then ([], [])
  else
    matchList.foldl (fun acc mp =>
      if !(guild.contains mp.1) then acc
      else
        let r := notify_pair fails uid mp.1
        (acc.1 ++ r.1, acc.2 ++ r.2)) ([], [])

/-- C2 counterexample: subject "u" blocks DMs (`send` to "u" raises
`Forbidden`); with one matched, reachable partner "m", the partner is never
attempted — the failure on the first send skips the second send, refuting
the claim that a failure to one party cannot prevent the attempt to the
other. -/
theorem notify_matches_first_failure_skips_partner :
    (notify_matches (fun s => s == "u") ["u", "m"] "u" [("m", (1 : ℚ) / 2)]).1 = ["u"] ∧
    ("m" ∈ (["u", "m"] : List String)) ∧
    "m" ∉ (notify_matches (fun s => s == "u") ["u", "m"] "u" [("m", (1 : ℚ) / 2)]).1 := by
  refine ⟨?_, by decide, ?_⟩
  · rfl
  · rw [show (notify_matches (fun s => s == "u") ["u", "m"] "u" [("m", (1 : ℚ) / 2)]).1 =
      ["u"] from rfl]
    decide

lemma notify_matches_foldl (fails : String → Bool) (guild : List String) (uid : String) :
    ∀ (l : List (String × ℚ)) (acc : List String × List String),
      l.foldl (fun acc mp =>
        if !(guild.contains mp.1) then acc
        else
          let r := notify_pair fails uid mp.1
          (acc.1 ++ r.1, acc.2 ++ r.2)) acc =
      (acc.1 ++ (l.filter (fun mp => guild.contains mp.1)).flatMap
          (fun mp => (notify_pair fails uid mp.1).1),
        acc.2 ++ (l.filter (fun mp => guild.contains mp.1)).flatMap
          (fun mp => (notify_pair fails uid mp.1).2)) := by
  intro l
  induction l with
  | nil => intro acc; simp
  | cons x xs ih =>
    intro acc
    rw [List.foldl_cons]
    cases hm : guild.contains x.1
    · rw [List.filter_cons]
      simp only [hm, Bool.not_false, if_true, Bool.false_eq_true, if_false]
      exact ih acc
    · rw [List.filter_cons]
      simp only [hm, Bool.not_true, Bool.false_eq_true, if_false, if_true]
      rw [ih]
      simp [List.append_assoc]

/-- C2 (amended): the per-pair `try`/`except` catches a `Forbidden`
delivery failure, so no failure aborts the remaining matched pairs or
escapes to the caller — every reachable pair contributes its own delivery
attempts independently; but because one `try` wraps both sends, a failure
sending to the subject (the first send) skips the attempt to that pair's
partner, while a failure sending to the partner leaves the subject's
already-completed delivery in place. -/
theorem notify_matches_behavior (fails : String → Bool) (guild : List String)
    (uid : String) (matchList : List (String × ℚ))
    (h : guild.contains uid = true) :
    notify_matches fails guild uid matchList =
      ((matchList.filter (fun mp => guild.contains mp.1)).flatMap
          (fun mp => (notify_pair fails uid mp.1).1),
        (matchList.filter (fun mp => guild.contains mp.1)).flatMap
          (fun mp => (notify_pair fails uid mp.1).2)) ∧
    (fails uid = true → ∀ mid, (notify_pair fails uid mid).1 = [uid]) ∧
    (fails uid = false → ∀ mid, (notify_pair fails uid mid).1 = [uid, mid] ∧
      uid ∈ (notify_pair fails uid mid).2) := by
  refine ⟨?_, ?_, ?_⟩
  · unfold notify_matches
    rw [h]
    simp only [Bool.not_true, Bool.false_eq_true, if_false]
    rw [notify_matches_foldl]
    simp
  · intro hf mid
    unfold notify_pair
    rw [hf]
    simp
  · intro hf mid
    unfold notify_pair
    rw [hf]
    simp only [Bool.false_eq_true, if_false]
    cases hm : fails mid <;> simp

/-- C2 witness: subject "u" deliverable, partner "m" blocking DMs: both are
attempted, "u" receives its copy, and the failure for "m" is absorbed. -/
theorem notify_matches_behavior_witness :
    notify_matches (fun s => s == "m") ["u", "m"] "u" [("m", (1 : ℚ) / 2)] =
      (["u", "m"], ["u"]) ∧
    (notify_pair (fun s => s == "m") "u" "m").1 = ["u", "m"] := by
  have hb := notify_matches_behavior (fun s => s == "m") ["u", "m"] "u"
    [("m", (1 : ℚ) / 2)] (by decide)
  constructor
  · rw [hb.1]
    rfl
  · exact ((hb.2.2 (by decide)) "m").1

/-- The three-category result of an extraction, as consumed by the
enrichment merge (`daily_analysis` iterates the result's `games`,
`artists`, `interests` sequences in that order). -/
structure Extracted where
  games : List String
  artists : List String
  interests : List String
deriving Repr, DecidableEq

/-- Embedding of `should_process_messages` (`llm_analysis.py`, lines
75–81): at least 3 messages and combined length over 100 characters. -/
def should_process_messages (messages : List String) : Bool :=
  if messages.length < 3 then false
  else decide (100 < (messages.map String.length).sum)

/-- The merge loop of `daily_analysis` (`bot.py`, lines 222–227) for one
category: dedup-insert each extracted candidate in order, tracking whether
the list changed. -/
def mergeCategory (l : List String) (news : List String) : List String × Bool :=
  news.foldl (fun acc i =>
    let r := dedupInsert acc.1 i
    (r.1, acc.2 || r.2)) (l, false)

/-- The guild loop of `daily_analysis` (`bot.py`, lines 234–240): walk the
bot's guilds and, in the FIRST one containing the member, run matching and
notification — then `break`.  Returns the guilds in which ranking ran. -/
def rankedGuildsLoop (uid : String) : List (List String) → List (List String)
  | [] => []
  | g :: gs => if g.contains uid then [g] else rankedGuildsLoop uid gs

/-- Observable outcome of processing one buffered identity: the store
afterwards, how many extraction calls were made, the profile passed to
`save()` (if any), and the guilds in which ranking/notification ran. -/
structure IdOutcome where
  db : List UserProfile
  extractionCalls : Nat
  savedProfile : Option UserProfile
  rankedGuilds : List (List String)
deriving Repr, DecidableEq

/-- Processing of one buffered identity inside the `try` of
`daily_analysis` (`bot.py`, lines 194–242): load the profile; skip
entirely when it exists with scanning disabled; gate on
`should_process_messages`; call the extractor (the oracle `extract`
models `extract_interests_from_messages` and may raise); create a fresh
profile when absent; merge the three categories with the dedup-insert; and
when anything changed, save and run matching/notification in the first
guild containing the member. -/
def processIdentity (extract : List String → Except String Extracted)
    (guilds : List (List String)) (db : List UserProfile)
    (uid : String) (messages : List String) : Except String IdOutcome :=
  let stored := find_by_discord_id db uid
  let skip := match stored with
    | some p => !p.scanning_enabled
    | none => false
  if skip then Except.ok ⟨db, 0, none, []⟩
  else if !(should_process_messages messages) then Except.ok ⟨db, 0, none, []⟩
  else
    match extract messages with
    | Except.error e => Except.error e
    | Except.ok extracted =>
      let user_profile := stored.getD
        { discord_id := uid, username := "Unknown", games := [], artists := [],
          interests := [], scanning_enabled := true }
      let mg := mergeCategory user_profile.games extracted.games
      let ma := mergeCategory user_profile.artists extracted.artists
      let mi := mergeCategory user_profile.interests extracted.interests
      let interests_added := mg.2 || ma.2 || mi.2
      if interests_added then
        let p1 := { user_profile with games := mg.1, artists := ma.1, interests := mi.1 }
        Except.ok ⟨upsertProfile db p1, 1, some p1, rankedGuildsLoop uid guilds⟩
      else
        Except.ok ⟨db, 1, none, []⟩

/-- Observable outcome of one whole enrichment cycle. -/
structure CycleOutcome where
  db : List UserProfile
  handled : List String
  errors : Nat
deriving Repr, DecidableEq

/-- One iteration of the cycle's identity loop: the `try`/`except
Exception` of `bot.py` lines 195–245 — a per-identity failure is logged
(counted here) and the loop moves on with the store unchanged. -/
def cycleStep (extract : List String → Except String Extracted)
    (guilds : List (List String)) (st : CycleOutcome)
    (entry : String × List String) : CycleOutcome :=
  match processIdentity extract guilds st.db entry.1 entry.2 with
  | Except.ok r => ⟨r.db, st.handled ++ [entry.1], st.errors⟩
  | Except.error _ => ⟨st.db, st.handled ++ [entry.1], st.errors + 1⟩

/-- Embedding of the `daily_analysis` cycle (`bot.py`, lines 187–250):
process every buffered identity in order, isolating per-identity
failures. -/
def daily_analysis (extract : List String → Except String Extracted)
    (guilds : List (List String)) (db0 : List UserProfile)
    (buffers : List (String × List String)) : CycleOutcome :=
  buffers.foldl (cycleStep extract guilds) ⟨db0, [], 0⟩

/-- C5: an identity whose stored profile has scanning disabled is skipped
before anything happens: no extraction call, no save, store untouched, no
ranking — however many messages are buffered for it. -/
theorem processIdentity_scanning_disabled
    (extract : List String → Except String Extracted)
    (guilds : List (List String)) (db : List UserProfile)
    (uid : String) (messages : List String) (p : UserProfile)
    (hfound : find_by_discord_id db uid = some p)
    (hoff : p.scanning_enabled = false) :
    processIdentity extract guilds db uid messages = Except.ok ⟨db, 0, none, []⟩ := by
  unfold processIdentity
  rw [hfound]
  simp [hoff]

/-- The profile with scanning disabled used as a concrete witness. -/
def profileC : UserProfile :=
  { discord_id := "C", username := "carol", games := ["Tetris"],
    artists := [], interests := [], scanning_enabled := false }

/-- Three buffered messages of combined length over 100, so the
gate `should_process_messages` alone would not skip them. -/
def longMessages : List String :=
  ["0123456789012345678901234567890123",
   "0123456789012345678901234567890123",
   "0123456789012345678901234567890123"]

/-- C5 witness: a disabled profile with enough buffered messages still
produces zero extraction calls and zero mutations. -/
theorem processIdentity_scanning_disabled_witness :
    processIdentity (fun _ => Except.ok ⟨["X"], [], []⟩) [["C"]] [profileC] "C"
      longMessages = Except.ok ⟨[profileC], 0, none, []⟩ ∧
    should_process_messages longMessages = true := by
  refine ⟨?_, by decide⟩
  exact processIdentity_scanning_disabled _ _ _ _ _ profileC (by decide) (by decide)

lemma cycleStep_ok (extract : List String → Except String Extracted)
    (guilds : List (List String)) (db : List UserProfile) (h : List String)
    (e : Nat) (x : String × List String) (r : IdOutcome)
    (hp : processIdentity extract guilds db x.1 x.2 = Except.ok r) :
    cycleStep extract guilds ⟨db, h, e⟩ x = ⟨r.db, h ++ [x.1], e⟩ := by
  unfold cycleStep
  rw [hp]

lemma cycleStep_error (extract : List String → Except String Extracted)
    (guilds : List (List String)) (db : List UserProfile) (h : List String)
    (e : Nat) (x : String × List String) (msg : String)
    (hp : processIdentity extract guilds db x.1 x.2 = Except.error msg) :
    cycleStep extract guilds ⟨db, h, e⟩ x = ⟨db, h ++ [x.1], e + 1⟩ := by
  unfold cycleStep
  rw [hp]

lemma daily_analysis_foldl_shift (extract : List String → Except String Extracted)
    (guilds : List (List String)) :
    ∀ (buffers : List (String × List String)) (db : List UserProfile)
      (h : List String) (e : Nat),
      buffers.foldl (cycleStep extract guilds) ⟨db, h, e⟩ =
        ⟨(buffers.foldl (cycleStep extract guilds) ⟨db, [], 0⟩).db,
         h ++ (buffers.foldl (cycleStep extract guilds) ⟨db, [], 0⟩).handled,
         e + (buffers.foldl (cycleStep extract guilds) ⟨db, [], 0⟩).errors⟩ := by
  intro buffers
  induction buffers with
  | nil => intro db h e; simp
  | cons x xs ih =>
    intro db h e
    rw [List.foldl_cons, List.foldl_cons]
    cases hp : processIdentity extract guilds db x.1 x.2 with
    | ok r =>
      rw [cycleStep_ok extract guilds db h e x r hp,
        cycleStep_ok extract guilds db [] 0 x r hp,
        ih r.db (h ++ [x.1]) e, ih r.db ([] ++ [x.1]) 0]
      simp only [CycleOutcome.mk.injEq, List.nil_append, List.append_assoc,
        List.singleton_append]
      exact ⟨by trivial, by trivial, by omega⟩
    | error msg =>
      rw [cycleStep_error extract guilds db h e x msg hp,
        cycleStep_error extract guilds db [] 0 x msg hp,
        ih db (h ++ [x.1]) (e + 1), ih db ([] ++ [x.1]) (0 + 1)]
      simp only [CycleOutcome.mk.injEq, List.nil_append, List.append_assoc,
        List.singleton_append]
      exact ⟨by trivial, by trivial, by omega⟩

/-- C9: the enrichment cycle handles every buffered identity and runs to
completion regardless of per-identity failures: the handled list is always
exactly the buffered identities in order, and an identity whose processing
raises leaves the store unchanged and does not prevent the remaining
identities from being processed. -/
theorem daily_analysis_isolates_failures
    (extract : List String → Except String Extracted)
    (guilds : List (List String)) (db0 : List UserProfile)
    (buffers : List (String × List String)) :
    (daily_analysis extract guilds db0 buffers).handled = buffers.map Prod.fst ∧
    (∀ uid messages rest e,
      processIdentity extract guilds db0 uid messages = Except.error e →
      daily_analysis extract guilds db0 ((uid, messages) :: rest) =
        ⟨(daily_analysis extract guilds db0 rest).db,
         uid :: (daily_analysis extract guilds db0 rest).handled,
         (daily_analysis extract guilds db0 rest).errors + 1⟩) := by
  constructor
  · show (buffers.foldl (cycleStep extract guilds) ⟨db0, [], 0⟩).handled = buffers.map Prod.fst
    induction buffers generalizing db0 with
    | nil => rfl
    | cons x xs ih =>
      rw [List.foldl_cons]
      cases hp : processIdentity extract guilds db0 x.1 x.2 with
      | ok r =>
        rw [cycleStep_ok extract guilds db0 [] 0 x r hp,
          daily_analysis_foldl_shift extract guilds xs r.db ([] ++ [x.1]) 0]
        simp only [List.nil_append, List.singleton_append, List.map_cons]
        rw [ih r.db]
      | error msg =>
        rw [cycleStep_error extract guilds db0 [] 0 x msg hp,
          daily_analysis_foldl_shift extract guilds xs db0 ([] ++ [x.1]) (0 + 1)]
        simp only [List.nil_append, List.singleton_append, List.map_cons]
        rw [ih db0]
  · intro uid messages rest e hp
    unfold daily_analysis
    rw [List.foldl_cons,
      cycleStep_error extract guilds db0 [] 0 (uid, messages) e hp,
      daily_analysis_foldl_shift extract guilds rest db0 ([] ++ [uid]) (0 + 1)]
    simp only [List.nil_append, List.singleton_append, CycleOutcome.mk.injEq]
    exact ⟨by trivial, by trivial, by omega⟩

/-- The failing extraction oracle used as a concrete witness: every call
raises (an API error). -/
def failingExtract : List String → Except String Extracted :=
  fun _ => Except.error ("APIError")

/-- C9 witness: with an extractor that always raises, a cycle over the
enabled identity "A" (whose messages pass the gate) followed by identity
"C2id" still handles both; the failing first identity mutates nothing. -/
theorem daily_analysis_isolates_failures_witness :
    (daily_analysis failingExtract [["A"]] [profileA]
      [("A", longMessages), ("C2id", [])]).handled = ["A", "C2id"] ∧
    daily_analysis failingExtract [["A"]] [profileA] [("A", longMessages)] =
      ⟨(daily_analysis failingExtract [["A"]] [profileA] []).db,
       "A" :: (daily_analysis failingExtract [["A"]] [profileA] []).handled,
       (daily_analysis failingExtract [["A"]] [profileA] []).errors + 1⟩ := by
  constructor
  · rw [(daily_analysis_isolates_failures failingExtract [["A"]] [profileA]
      [("A", longMessages), ("C2id", [])]).1]
    rfl
  · exact (daily_analysis_isolates_failures failingExtract [["A"]] [profileA] []).2
      "A" longMessages [] "APIError" (by rfl)

lemma rankedGuildsLoop_eq (uid : String) :
    ∀ gs : List (List String),
      rankedGuildsLoop uid gs = (gs.filter (fun g => g.contains uid)).take 1 := by
  intro gs
  induction gs with
  | nil => rfl
  | cons g t ih =>
    unfold rankedGuildsLoop
    rw [List.filter_cons]
    cases hg : g.contains uid
    · simp only [Bool.false_eq_true, if_false]
      exact ih
    · simp only [if_true, List.take_succ_cons, List.take_zero]

/-- C6 (amended): when an enrichment pass over one identity changed any
category, the profile is upserted and ranking/notification then runs in
only the FIRST reachable guild (the source `break`s out of the guild loop
after the first guild containing the member), not in every reachable
guild. -/
theorem processIdentity_ranks_first_guild_only
    (extract : List String → Except String Extracted)
    (guilds : List (List String)) (db : List UserProfile)
    (uid : String) (messages : List String) (r : IdOutcome) (p1 : UserProfile)
    (h : processIdentity extract guilds db uid messages = Except.ok r)
    (hsaved : r.savedProfile = some p1) :
    r.db = upsertProfile db p1 ∧
    r.rankedGuilds = (guilds.filter (fun g => g.contains uid)).take 1 := by
  simp only [processIdentity] at h
  split at h
  · injection h with h2
    subst h2
    simp at hsaved
  · split at h
    · injection h with h2
      subst h2
      simp at hsaved
    · split at h
      · exact Except.noConfusion h
      · split at h
        · injection h with h2
          subst h2
          have hps := Option.some.inj hsaved
          subst hps
          exact ⟨rfl, rankedGuildsLoop_eq uid guilds⟩
        · injection h with h2
          subst h2
          simp at hsaved

/-- The fresh subject of the guild-break example, before enrichment. -/
def profileU1 : UserProfile :=
  { discord_id := "u1", username := "u1name", games := [], artists := [],
    interests := [], scanning_enabled := true }

/-- The subject of the guild-break example after merging the extracted
game. -/
def u1After : UserProfile :=
  { discord_id := "u1", username := "u1name", games := ["NewGame"],
    artists := [], interests := [], scanning_enabled := true }

/-- An extraction oracle returning one new game. -/
def extractOne : List String → Except String Extracted :=
  fun _ => Except.ok ⟨["NewGame"], [], []⟩

/-- Two guilds that both contain the member `u1`. -/
def twoGuilds : List (List String) := [["u1", "x"], ["u1", "y"]]

/-- C6 counterexample: identity `u1` is a member of BOTH guilds and its
profile changed during the cycle, yet ranking/notification runs only in
the first guild — the second reachable guild is skipped, refuting "every
reachable community". -/
theorem processIdentity_skips_second_guild :
    (processIdentity extractOne twoGuilds [profileU1] "u1" longMessages).map
      (fun r => (r.savedProfile.isSome, r.rankedGuilds)) =
      Except.ok (true, [["u1", "x"]]) ∧
    (["u1", "y"] : List String).contains ("u1") = true ∧
    ([["u1", "x"]] : List (List String)) ≠
      twoGuilds.filter (fun g => g.contains ("u1")) := by
  refine ⟨by rfl, by rfl, by decide⟩

/-- C6 witness: the amended theorem applied to the concrete guild-break
example. -/
theorem processIdentity_ranks_first_guild_only_witness :
    (IdOutcome.mk (upsertProfile [profileU1] u1After) 1 (some u1After)
        [["u1", "x"]]).db = upsertProfile [profileU1] u1After ∧
    (IdOutcome.mk (upsertProfile [profileU1] u1After) 1 (some u1After)
        [["u1", "x"]]).rankedGuilds =
      (twoGuilds.filter (fun g => g.contains ("u1"))).take 1 := by
  have h : processIdentity extractOne twoGuilds [profileU1] "u1" longMessages =
      Except.ok ⟨upsertProfile [profileU1] u1After, 1, some u1After, [["u1", "x"]]⟩ := by
    rfl
  exact processIdentity_ranks_first_guild_only extractOne twoGuilds [profileU1]
    "u1" longMessages _ u1After h rfl

/-- Embedding of the `on_message` handler (`bot.py`, lines 170–185): bot
messages are ignored; any other author's message is appended to that
author's buffer, which is then truncated to its 50 most recent entries.
The handler receives the profile store only so that the theorem can state
that it never reads it — the source performs no profile lookup and no
scanning check here. -/
def on_message (db : List UserProfile) (buffer : List String)
    (authorIsBot : Bool) (content : String) : List String :=
  if authorIsBot then buffer
  else
    let b := buffer ++ [content]
    if 50 < b.length then b.drop (b.length - 50) else b

/-- C10: every non-bot message is appended to its author's buffer
unconditionally — the result is always the last 50 entries of
`buffer ++ [content]`, it does not depend on the profile store in any way
(no lookup, no scanning check), bot messages leave the buffer untouched,
and at most 50 messages are retained. -/
theorem on_message_buffers_unconditionally (db db' : List UserProfile)
    (buffer : List String) (content : String) :
    on_message db buffer false content =
      (buffer ++ [content]).drop ((buffer ++ [content]).length - 50) ∧
    on_message db buffer false content = on_message db' buffer false content ∧
    on_message db buffer true content = buffer ∧
    (on_message db buffer false content).length ≤ 50 := by
  have hmain : on_message db buffer false content =
      (buffer ++ [content]).drop ((buffer ++ [content]).length - 50) := by
    unfold on_message
    simp only [Bool.false_eq_true, if_false]
    by_cases h : 50 < (buffer ++ [content]).length
    · rw [if_pos h]
    · rw [if_neg h, Nat.sub_eq_zero_of_le (le_of_not_lt h), List.drop_zero]
  refine ⟨hmain, rfl, rfl, ?_⟩
  rw [hmain, List.length_drop]
  omega

/-- JSON values as Python's `json.loads` produces them. -/
inductive JValue where
  | null
  | jbool (b : Bool)
  | jnum (n : Int)
  | jstr (s : String)
  | jarr (elems : List JValue)
  | jobj (fields : List (String × JValue))

/-- Python's `extracted.get(key, default)`: only a dict has `.get`; any
other value raises `AttributeError`. -/
def jget (v : JValue) (key : String) (dflt : JValue) : Except String JValue :=
  match v with
  | JValue.jobj fields =>
    match fields.find? (fun f => f.1 == key) with
    | some f => Except.ok f.2
    | none => Except.ok dflt
  | _ => Except.error ("AttributeError")

/-- Python's slicing `v[:3]`: lists and strings slice to their first three
elements; anything else raises `TypeError`. -/
def jslice3 (v : JValue) : Except String JValue :=
  match v with
  | JValue.jarr l => Except.ok (JValue.jarr (l.take 3))
  | JValue.jstr s => Except.ok (JValue.jstr (String.mk (s.data.take 3)))
  | _ => Except.error ("TypeError")

/-- The `result` dict literal of `extract_interests_from_messages`
(`llm_analysis.py`, lines 63–67): exactly the three keys. -/
structure ExtractResult where
  games : JValue
  artists : JValue
  interests : JValue

/-- The all-empty three-category result returned on failure. -/
def emptyExtractResult : ExtractResult :=
  ⟨JValue.jarr [], JValue.jarr [], JValue.jarr []⟩

/-- Python's `str.strip()`: whitespace removed from both ends. -/
def pyStrip (s : String) : String :=
  String.mk (((s.data.dropWhile Char.isWhitespace).reverse.dropWhile
    Char.isWhitespace).reverse)

/-- Python's `str.startswith`. -/
def pyStartsWith (s pre : String) : Bool :=
  s.data.take pre.data.length == pre.data

/-- Python's `content[a:-3]` slicing. -/
def stripFence (s : String) (a : Nat) : String :=
  String.mk ((s.data.take (s.data.length - 3)).drop a)

/-- The opening of a JSON code fence. -/
def fenceJson : String := "```json"

/-- The opening of a bare code fence. -/
def fencePlain : String := "```"

/-- The fence unwrapping of `extract_interests_from_messages`
(`llm_analysis.py`, lines 55–58). -/
def unfence (content : String) : String :=
  if pyStartsWith content fenceJson then stripFence content 7
  else if pyStartsWith content fencePlain then stripFence content 3
  else content

/-- One category of the validation dict: `extracted.get(key, [])[:3]`. -/
def validateCategory (extracted : JValue) (key : String) : Except String JValue :=
  match jget extracted key (JValue.jarr []) with
  | Except.error e => Except.error e
  | Except.ok v => jslice3 v

/-- The validated result dict built from the three category accesses: if
any of them raised, the whole `try` fails and the all-empty result is
returned. -/
def combine3 (g a i : Except String JValue) : ExtractResult :=
  match g, a, i with
  | Except.ok g, Except.ok a, Except.ok i => ⟨g, a, i⟩
  | _, _, _ => emptyExtractResult

/-- The part of `extract_interests_from_messages` after the external call:
parse outcome to validated result. -/
def extractStage2 (parsed : Except String JValue) : ExtractResult :=
  match parsed with
  | Except.error _ => emptyExtractResult
  | Except.ok extracted =>
    combine3 (validateCategory extracted ("games")) (validateCategory extracted ("artists"))
      (validateCategory extracted ("interests"))

/-- Embedding of `extract_interests_from_messages` (`llm_analysis.py`,
lines 9–73).  `callLLM` is the outcome of the external call (the
response's content, or the exception it raised); `parse` models
`json.loads`.  The source's `try` spans the call, the strip, the fence
unwrapping, the parse and the three `get(...)[:3]` accesses; any raise
inside it is caught and yields the all-empty result. -/
def extract_interests_from_messages (callLLM : Except String String)
    (parse : String → Except String JValue) : ExtractResult :=
  match callLLM with
  | Except.error _ => emptyExtractResult
  | Except.ok raw => extractStage2 (parse (unfence (pyStrip raw)))

/-- A category value as the validation can actually leave it: the first-3
slice of a JSON list, or the first-3-characters slice of a JSON string. -/
def sliceBounded (v : JValue) : Prop :=
  (∃ l, v = JValue.jarr l ∧ l.length ≤ 3) ∨
  (∃ s, v = JValue.jstr s ∧ s.length ≤ 3)

lemma jslice3_ok (v w : JValue) (h : jslice3 v = Except.ok w) : sliceBounded w := by
  cases v with
  | jarr l =>
    refine Or.inl ⟨l.take 3, ?_, List.length_take_le 3 l⟩
    injection h with h2
    exact h2.symm
  | jstr s =>
    refine Or.inr ⟨String.mk (s.data.take 3), ?_, ?_⟩
    · injection h with h2
      exact h2.symm
    · show (String.mk (s.data.take 3)).data.length ≤ 3
      exact List.length_take_le 3 s.data
  | null => exact Except.noConfusion h
  | jbool b => exact Except.noConfusion h
  | jnum n => exact Except.noConfusion h
  | jobj fields => exact Except.noConfusion h

lemma validateCategory_ok (x : JValue) (k : String) (w : JValue)
    (h : validateCategory x k = Except.ok w) : sliceBounded w := by
  unfold validateCategory at h
  cases hg : jget x k (JValue.jarr []) with
  | error e => rw [hg] at h; exact Except.noConfusion h
  | ok v => rw [hg] at h; exact jslice3_ok v w h

lemma sliceBounded_empty_components :
    sliceBounded emptyExtractResult.games ∧ sliceBounded emptyExtractResult.artists ∧
    sliceBounded emptyExtractResult.interests := by
  refine ⟨Or.inl ⟨[], rfl, ?_⟩, Or.inl ⟨[], rfl, ?_⟩, Or.inl ⟨[], rfl, ?_⟩⟩ <;> simp

lemma combine3_cases (g a i : Except String JValue) :
    combine3 g a i = emptyExtractResult ∨
    (∃ vg va vi, g = Except.ok vg ∧ a = Except.ok va ∧ i = Except.ok vi ∧
      combine3 g a i = ⟨vg, va, vi⟩) := by
  cases g with
  | error e => exact Or.inl rfl
  | ok vg =>
    cases a with
    | error e => exact Or.inl rfl
    | ok va =>
      cases i with
      | error e => exact Or.inl rfl
      | ok vi => exact Or.inr ⟨vg, va, vi, rfl, rfl, rfl, rfl⟩

lemma extract_error_eq (e : String) (parse : String → Except String JValue) :
    extract_interests_from_messages (Except.error e) parse = emptyExtractResult := rfl

lemma extract_ok_eq (raw : String) (parse : String → Except String JValue) :
    extract_interests_from_messages (Except.ok raw) parse =
      extractStage2 (parse (unfence (pyStrip raw))) := rfl

lemma extractStage2_error (e : String) :
    extractStage2 (Except.error e) = emptyExtractResult := rfl

lemma extractStage2_ok (x : JValue) :
    extractStage2 (Except.ok x) =
      combine3 (validateCategory x ("games")) (validateCategory x ("artists"))
        (validateCategory x ("interests")) := rfl

lemma extract_result_cases (callLLM : Except String String)
    (parse : String → Except String JValue) :
    extract_interests_from_messages callLLM parse = emptyExtractResult ∨
    (∃ x g a i, validateCategory x ("games") = Except.ok g ∧
      validateCategory x ("artists") = Except.ok a ∧
      validateCategory x ("interests") = Except.ok i ∧
      extract_interests_from_messages callLLM parse = ⟨g, a, i⟩) := by
  cases callLLM with
  | error e => exact Or.inl (extract_error_eq e parse)
  | ok raw =>
    rw [extract_ok_eq]
    cases hp : parse (unfence (pyStrip raw)) with
    | error e => exact Or.inl (extractStage2_error e)
    | ok extracted =>
      rw [extractStage2_ok]
      rcases combine3_cases (validateCategory extracted ("games"))
        (validateCategory extracted ("artists"))
        (validateCategory extracted ("interests")) with h | ⟨vg, va, vi, hg, ha, hi, hc⟩
      · exact Or.inl h
      · exact Or.inr ⟨extracted, vg, va, vi, hg, ha, hi, hc⟩

/-- C7 (amended): the extractor always returns the three-key structure
whose every value is the `[:3]` slice of what the capability returned for
that key — a list of at most 3 items, or, when the returned JSON held a
string for a category, a string of at most 3 characters (not a list); and
on a failure of the external call, or a response that does not parse, all
three categories come back empty instead of raising. -/
theorem extract_interests_contract (callLLM : Except String String)
    (parse : String → Except String JValue) :
    sliceBounded (extract_interests_from_messages callLLM parse).games ∧
    sliceBounded (extract_interests_from_messages callLLM parse).artists ∧
    sliceBounded (extract_interests_from_messages callLLM parse).interests ∧
    (∀ e, callLLM = Except.error e →
      extract_interests_from_messages callLLM parse = emptyExtractResult) ∧
    ((∀ s, (parse s).isOk = false) →
      extract_interests_from_messages callLLM parse = emptyExtractResult) := by
  have hshape : sliceBounded (extract_interests_from_messages callLLM parse).games ∧
      sliceBounded (extract_interests_from_messages callLLM parse).artists ∧
      sliceBounded (extract_interests_from_messages callLLM parse).interests := by
    cases extract_result_cases callLLM parse with
    | inl h => rw [h]; exact sliceBounded_empty_components
    | inr h =>
      obtain ⟨x, g, a, i, hg, ha, hi, hr⟩ := h
      rw [hr]
      exact ⟨validateCategory_ok x ("games") g hg, validateCategory_ok x ("artists") a ha,
        validateCategory_ok x ("interests") i hi⟩
  refine ⟨hshape.1, hshape.2.1, hshape.2.2, ?_, ?_⟩
  · intro e he
    rw [he]
    exact extract_error_eq e parse
  · intro hp
    cases callLLM with
    | error e => exact extract_error_eq e parse
    | ok raw =>
      rw [extract_ok_eq]
      cases hc : parse (unfence (pyStrip raw)) with
      | error e => exact extractStage2_error e
      | ok v =>
        have hok := hp (unfence (pyStrip raw))
        rw [hc] at hok
        exact absurd hok (by simp [Except.isOk, Except.toBool])

/-- A parser that always raises (models a response `json.loads` rejects). -/
def nullParse : String → Except String JValue :=
  fun _ => Except.error ("ValueError")

/-- C7 witness: a timed-out external call yields the all-empty result, with
each category a well-formed (empty) list. -/
theorem extract_interests_contract_witness :
    extract_interests_from_messages (Except.error ("timeout")) nullParse =
      emptyExtractResult ∧
    sliceBounded (extract_interests_from_messages (Except.error ("timeout"))
      nullParse).games := by
  have h := extract_interests_contract (Except.error ("timeout")) nullParse
  exact ⟨h.2.2.2.1 ("timeout") rfl, h.1⟩

/-- A parser returning a JSON object whose `games` value is a STRING. -/
def parseStrGames : String → Except String JValue :=
  fun _ => Except.ok (JValue.jobj
    [("games", JValue.jstr ("chess")), ("artists", JValue.jarr []),
     ("interests", JValue.jarr [])])

/-- Whether a JSON value is a list. -/
def isJArr : JValue → Bool
  | JValue.jarr _ => true
  | _ => false

/-- C7 counterexample: when the capability's JSON holds the string
"chess" under `games`, the code's `[:3]` slices the string, so the result
carries the string "che" — not a list of items — under `games`, refuting
"each holding a list of at most 3 items regardless of what the external
capability returned". -/
theorem extract_interests_string_slips_through :
    (extract_interests_from_messages (Except.ok ("x")) parseStrGames).games =
      JValue.jstr ("che") ∧
    isJArr (extract_interests_from_messages (Except.ok ("x")) parseStrGames).games =
      false := by
  constructor
  · rfl
  · rfl

/-- C1 witness: the amended equality evaluated on the end-to-end example
profiles. -/
theorem calculate_similarity_eq_spec_cs_witness :
    calculate_similarity profileA profileB = spec_score_cs profileA profileB :=
  calculate_similarity_eq_spec_cs profileA profileB

/-- C4 witness: the ranking characterization evaluated on a concrete store
and guild. -/
theorem find_matches_ranking_witness :
    find_matches profileA [profileA, profileB] (fun _ => true) (3 / 10) =
      (List.insertionSort scoreGE (rankFilter profileA
        (find_all_except [profileA, profileB] profileA.discord_id)
        (fun _ => true) (3 / 10))).take 5 ∧
    (find_matches profileA [profileA, profileB] (fun _ => true) (3 / 10)).length ≤ 5 := by
  have h := find_matches_ranking profileA [profileA, profileB] (fun _ => true) (3 / 10)
  exact ⟨h.1, h.2.2.2.2.2⟩

/-- C10 witness: the buffering equation evaluated on a concrete store and
buffer — the store plays no part. -/
theorem on_message_buffers_unconditionally_witness :
    on_message [profileC] ["a"] false ("b") =
      (["a"] ++ ["b"]).drop ((["a"] ++ ["b"]).length - 50) ∧
    on_message [profileC] ["a"] true ("b") = ["a"] := by
  have h := on_message_buffers_unconditionally [profileC] [] ["a"] ("b")
  exact ⟨h.1, h.2.2.1⟩
